import Mathlib

/-!
Verification of the gpon-sync enrichment pipeline.

Shallow embedding of the core of the gpon-sync repository: the per-circuit
enrichment workflow and bounded worker pool (internal/core/worker_pool.go,
three-step variant cited by the spec), the config worker-count loading
(internal/config/config.go), the two batch-writer loops (the runProcess
closure and the simpler main loop), and the transactional batch update
(internal/adapters/postgres/repo.go).

Go errors are embedded as Except String / Option String; channels and
goroutines are embedded as an explicit scheduler-indexed small-step system
on a pool state.
-/

deriving instance DecidableEq for Except

namespace GponSync

/-- Circuit as in internal/core/domain.go (three-step variant).  Fields the
pipeline and repository never read (timestamps, cached float telemetry) are
elided; all fields read by the cited code are present. -/
structure Circuit where
  id : Int := 0
  cid : String
  name : String := ""
  planName : String := ""
  olt : String := ""
  oltHostname : String := ""
  ponPort : String := ""
  onuIndex : String := ""
  deriving DecidableEq, Repr

/-- EnrichedData as in internal/core/domain.go.  The Go Error field (an
error value, nil when absent) is embedded as an Option String.  The variants
in the snapshot name the credential fields PPPoEUser/PPPoEPass or
PPPoEUsername/PPPoEPassword; the cited worker and main use the latter. -/
structure EnrichedData where
  circuitID : String
  vlan : String := ""
  pppoeUsername : String := ""
  pppoePassword : String := ""
  statusGpon : String := ""
  rxPower : String := ""
  error : Option String := none
  deriving DecidableEq, Repr

/-- The three upstream client ports consumed by the worker
(NotionClient.GetNetworkInfo, UbersmithClient.GetServiceDetails,
ZabbixClient.GetOpticalInfo).  Each call either returns its tuple or fails
with an error message. -/
structure Clients where
  getNetworkInfo : String → Except String (String × String)
  getServiceDetails : String → Except String (String × String)
  getOpticalInfo : String → String → Except String (String × String)

/-- Body of the worker loop for one circuit
(internal/core/worker_pool.go, lines 127-167 of the cited variant):
step 1 Notion GetNetworkInfo (failure short-circuits with a tagged error),
step 2 Ubersmith GetServiceDetails (failure only logged, fields left empty),
step 3 Zabbix GetOpticalInfo on the OLT/ONT from step 1 (failure recorded in
the error field, merging with any prior error exactly as the Go code does). -/
def processCircuit (cl : Clients) (c : Circuit) : EnrichedData :=
  match cl.getNetworkInfo c.cid with
  | .error e => { circuitID := c.cid, error := some ("notion error: " ++ e) }
  | .ok (olt, ont) =>
    let enriched : EnrichedData :=
      match cl.getServiceDetails c.cid with
      | .error _ => { circuitID := c.cid }
      | .ok (pUser, pPass) =>
        { circuitID := c.cid, pppoeUsername := pUser, pppoePassword := pPass }
    match cl.getOpticalInfo olt ont with
    | .error e =>
      match enriched.error with
      | none => { enriched with error := some ("zabbix error: " ++ e) }
      | some prev => { enriched with error := some (prev ++ "; zabbix error: " ++ e) }
    | .ok (status, rx) => { enriched with statusGpon := status, rxPower := rx }

/-- Instrumented copy of processCircuit that also returns, in call order, the
names of the upstream lookups actually invoked; used to settle claims about
which steps are attempted or skipped. -/
def processCircuitTrace (cl : Clients) (c : Circuit) : EnrichedData × List String :=
  match cl.getNetworkInfo c.cid with
  | .error e => ({ circuitID := c.cid, error := some ("notion error: " ++ e) }, ["notion"])
  | .ok (olt, ont) =>
    let enriched : EnrichedData :=
      match cl.getServiceDetails c.cid with
      | .error _ => { circuitID := c.cid }
      | .ok (pUser, pPass) =>
        { circuitID := c.cid, pppoeUsername := pUser, pppoePassword := pPass }
    match cl.getOpticalInfo olt ont with
    | .error e =>
      (match enriched.error with
       | none => { enriched with error := some ("zabbix error: " ++ e) }
       | some prev => { enriched with error := some (prev ++ "; zabbix error: " ++ e) },
       ["notion", "ubersmith", "zabbix"])
    | .ok (status, rx) =>
      ({ enriched with statusGpon := status, rxPower := rx },
       ["notion", "ubersmith", "zabbix"])

theorem processCircuitTrace_fst (cl : Clients) (c : Circuit) :
    (processCircuitTrace cl c).1 = processCircuit cl c := by
  unfold processCircuitTrace processCircuit
  cases cl.getNetworkInfo c.cid with
  | error e => rfl
  | ok p =>
    cases p with
    | mk olt ont =>
      cases cl.getServiceDetails c.cid <;>
        [skip; skip] <;>
        simp only [] <;>
        cases cl.getOpticalInfo olt ont <;> rfl

/-!
Worker pool (WorkerPool.Run, worker_pool.go lines 101-122 of the cited
variant).  Run buffers every circuit into the jobs channel, starts
workerCount goroutines that each repeatedly dequeue a circuit and emit one
EnrichedData, and closes the results channel once the WaitGroup reports all
workers done.  The concurrency is embedded as a small-step system: the pool
state holds the remaining job queue, the bag of circuits currently held by
busy workers (at most workerCount of them), and the results emitted so far.
A schedule is a list of actions; an action that is not enabled leaves the
state unchanged.  The results channel is closed exactly when every worker
has exited its loop: with at least one worker that means the queue is empty
and no worker holds a circuit; with zero workers the WaitGroup is empty and
the channel closes immediately, whatever is still queued.
-/

/-- Scheduler action for the pool: either a free worker dequeues the next
job, or the busy worker holding in-flight slot i finishes its circuit and
emits the enriched result. -/
inductive PoolAction where
  | dequeue
  | finish (i : Nat)
  deriving DecidableEq, Repr

/-- State of one pool run: remaining queued circuits, circuits currently
held by busy workers, and results emitted to the output channel so far. -/
structure PoolState where
  jobs : List Circuit
  inFlight : List Circuit
  emitted : List EnrichedData
  deriving DecidableEq, Repr

/-- One scheduler step of the pool with n workers.  A dequeue is enabled
when a job is queued and fewer than n workers are busy; finish i is enabled
when in-flight slot i exists.  Disabled actions are no-ops. -/
def poolStep (cl : Clients) (n : Nat) (s : PoolState) : PoolAction → PoolState
  | .dequeue =>
    match s.jobs with
    | [] => s
    | c :: rest =>
      if s.inFlight.length < n then
        { jobs := rest, inFlight := c :: s.inFlight, emitted := s.emitted }
      else s
  | .finish i =>
    if h : i < s.inFlight.length then
      { jobs := s.jobs,
        inFlight := s.inFlight.eraseIdx i,
        emitted := processCircuit cl (s.inFlight.get ⟨i, h⟩) :: s.emitted }
    else s

/-- Initial state of Run: all circuits pre-loaded into the jobs queue, no
worker busy, nothing emitted. -/
def poolInit (circuits : List Circuit) : PoolState :=
  { jobs := circuits, inFlight := [], emitted := [] }

/-- Execute a whole schedule from the initial state. -/
def poolRun (cl : Clients) (n : Nat) (circuits : List Circuit)
    (sched : List PoolAction) : PoolState :=
  sched.foldl (poolStep cl n) (poolInit circuits)

/-- Closing condition of the results channel: the wg.Wait in Run returns
exactly when every started worker has exited its range loop.  With n = 0
that is immediate; with n >= 1 it requires the queue drained and no circuit
in flight. -/
def poolClosed (n : Nat) (s : PoolState) : Bool :=
  s.inFlight.isEmpty && (s.jobs.isEmpty || n == 0)

/-- Canonical draining schedule: dequeue each circuit and finish it at
slot 0, job by job. -/
def drainSched (circuits : List Circuit) : List PoolAction :=
  (circuits.map fun _ => [PoolAction.dequeue, PoolAction.finish 0]).flatten

/-- List with the element at index i moved to the front is a permutation of
the original list. -/
theorem perm_get_cons_eraseIdx :
    ∀ (l : List Circuit) (i : Nat) (h : i < l.length),
      List.Perm (l.get ⟨i, h⟩ :: l.eraseIdx i) l := by
  intro l
  induction l with
  | nil => intro i h; exact absurd h (Nat.not_lt_zero i)
  | cons a as ih =>
    intro i h
    cases i with
    | zero => simp [List.eraseIdx]
    | succ j =>
      have hj : j < as.length := Nat.lt_of_succ_lt_succ h
      have step := ih j hj
      have h1 : List.Perm (as.get ⟨j, hj⟩ :: a :: as.eraseIdx j)
          (a :: as.get ⟨j, hj⟩ :: as.eraseIdx j) :=
        List.Perm.swap a (as.get ⟨j, hj⟩) (as.eraseIdx j)
      have h2 : List.Perm (a :: as.get ⟨j, hj⟩ :: as.eraseIdx j) (a :: as) :=
        List.Perm.cons a step
      simpa [List.eraseIdx] using h1.trans h2

/-- Conservation invariant of the pool: the emitted results together with
the images of the queued and in-flight circuits are a permutation of the
images of all input circuits. -/
def poolInv (cl : Clients) (circuits : List Circuit) (s : PoolState) : Prop :=
  List.Perm (s.emitted ++ (s.inFlight ++ s.jobs).map (processCircuit cl))
    (circuits.map (processCircuit cl))

theorem poolInv_init (cl : Clients) (circuits : List Circuit) :
    poolInv cl circuits (poolInit circuits) := by
  simp [poolInv, poolInit]

theorem poolInv_step (cl : Clients) (n : Nat) (circuits : List Circuit)
    (s : PoolState) (a : PoolAction) (hinv : poolInv cl circuits s) :
    poolInv cl circuits (poolStep cl n s a) := by
  cases a with
  | dequeue =>
    cases s with
    | mk jobs inFlight emitted =>
      cases jobs with
      | nil => simpa [poolStep] using hinv
      | cons c rest =>
        by_cases hlt : inFlight.length < n
        · have key : List.Perm
              (emitted ++ ((c :: inFlight) ++ rest).map (processCircuit cl))
              (emitted ++ (inFlight ++ c :: rest).map (processCircuit cl)) := by
            refine List.Perm.append_left emitted (List.Perm.map _ ?_)
            exact (List.perm_middle).symm
          have hres := key.trans hinv
          simpa [poolInv, poolStep, hlt] using hres
        · simpa [poolInv, poolStep, hlt] using hinv
  | finish i =>
    by_cases h : i < s.inFlight.length
    · have hperm : List.Perm
          (s.inFlight.get ⟨i, h⟩ :: s.inFlight.eraseIdx i) s.inFlight :=
        perm_get_cons_eraseIdx s.inFlight i h
      have key : List.Perm
          ((processCircuit cl (s.inFlight.get ⟨i, h⟩) :: s.emitted) ++
            (s.inFlight.eraseIdx i ++ s.jobs).map (processCircuit cl))
          (s.emitted ++ (s.inFlight ++ s.jobs).map (processCircuit cl)) := by
        have step1 : List.Perm
            ((processCircuit cl (s.inFlight.get ⟨i, h⟩) :: s.emitted) ++
              (s.inFlight.eraseIdx i ++ s.jobs).map (processCircuit cl))
            (s.emitted ++ (processCircuit cl (s.inFlight.get ⟨i, h⟩) ::
              (s.inFlight.eraseIdx i ++ s.jobs).map (processCircuit cl))) := by
          simpa using (@List.perm_middle _
            (processCircuit cl (s.inFlight.get ⟨i, h⟩))
            s.emitted
            ((s.inFlight.eraseIdx i ++ s.jobs).map (processCircuit cl))).symm
        have step2 : List.Perm
            (s.emitted ++ (processCircuit cl (s.inFlight.get ⟨i, h⟩) ::
              (s.inFlight.eraseIdx i ++ s.jobs).map (processCircuit cl)))
            (s.emitted ++ (s.inFlight ++ s.jobs).map (processCircuit cl)) := by
          refine List.Perm.append_left s.emitted ?_
          have hap : List.Perm
              ((s.inFlight.get ⟨i, h⟩ :: s.inFlight.eraseIdx i) ++ s.jobs)
              (s.inFlight ++ s.jobs) := hperm.append_right s.jobs
          simpa using hap.map (processCircuit cl)
        exact step1.trans step2
      have hres := key.trans hinv
      have hstep : poolStep cl n s (PoolAction.finish i) =
          { jobs := s.jobs,
            inFlight := s.inFlight.eraseIdx i,
            emitted := processCircuit cl (s.inFlight.get ⟨i, h⟩) :: s.emitted } := by
        simp [poolStep, h]
      rw [poolInv, hstep]
      simpa using hres
    · have hstep : poolStep cl n s (PoolAction.finish i) = s := by
        simp [poolStep, h]
      rw [poolInv, hstep]
      exact hinv

theorem poolInv_run (cl : Clients) (n : Nat) (circuits : List Circuit)
    (sched : List PoolAction) :
    poolInv cl circuits (poolRun cl n circuits sched) := by
  suffices h : ∀ (s : PoolState), poolInv cl circuits s →
      poolInv cl circuits (sched.foldl (poolStep cl n) s) by
    exact h (poolInit circuits) (poolInv_init cl circuits)
  induction sched with
  | nil => intro s hs; simpa using hs
  | cons a rest ih =>
    intro s hs
    exact ih (poolStep cl n s a) (poolInv_step cl n circuits s a hs)

/-- Core pool correctness: with at least one worker, whenever the results
channel closes, the emitted results are a permutation of the per-circuit
enrichment of the whole input. -/
theorem pool_emitted_perm (cl : Clients) (n : Nat) (circuits : List Circuit)
    (sched : List PoolAction) (hn : 1 ≤ n)
    (hclosed : poolClosed n (poolRun cl n circuits sched) = true) :
    List.Perm (poolRun cl n circuits sched).emitted
      (circuits.map (processCircuit cl)) := by
  have hinv := poolInv_run cl n circuits sched
  simp only [poolClosed, Bool.and_eq_true] at hclosed
  obtain ⟨hfl, hrest⟩ := hclosed
  have hfl' : (poolRun cl n circuits sched).inFlight = [] :=
    List.isEmpty_iff.mp hfl
  have hjobs : (poolRun cl n circuits sched).jobs = [] := by
    simp only [Bool.or_eq_true] at hrest
    rcases hrest with hemp | hzero
    · exact List.isEmpty_iff.mp hemp
    · have hn0 : n = 0 := by simpa using hzero
      omega
  rw [poolInv, hfl', hjobs] at hinv
  simpa using hinv

/-- The canonical schedule drains the pool when there is at least one
worker: after it, the channel is closed. -/
theorem drainSched_closed (cl : Clients) (n : Nat) (circuits : List Circuit)
    (hn : 1 ≤ n) :
    poolClosed n (poolRun cl n circuits (drainSched circuits)) = true := by
  suffices h : ∀ (em : List EnrichedData),
      ∃ em2, (drainSched circuits).foldl (poolStep cl n)
        { jobs := circuits, inFlight := [], emitted := em } =
        { jobs := [], inFlight := [], emitted := em2 } by
    obtain ⟨em2, h2⟩ := h []
    simp [poolRun, poolInit, h2, poolClosed]
  induction circuits with
  | nil => intro em; exact ⟨em, rfl⟩
  | cons c rest ih =>
    intro em
    have step2 : (PoolAction.dequeue :: PoolAction.finish 0 :: drainSched rest).foldl
        (poolStep cl n) { jobs := c :: rest, inFlight := [], emitted := em } =
        (drainSched rest).foldl (poolStep cl n)
          { jobs := rest, inFlight := [], emitted := processCircuit cl c :: em } := by
      have h1 : poolStep cl n { jobs := c :: rest, inFlight := [], emitted := em }
          PoolAction.dequeue =
          { jobs := rest, inFlight := [c], emitted := em } := by
        simp [poolStep]
        omega
      have h2 : poolStep cl n { jobs := rest, inFlight := [c], emitted := em }
          (PoolAction.finish 0) =
          { jobs := rest, inFlight := [], emitted := processCircuit cl c :: em } := by
        simp [poolStep, List.eraseIdx]
      simp [List.foldl, h1, h2]
    obtain ⟨em2, hrest⟩ := ih (processCircuit cl c :: em)
    refine ⟨em2, ?_⟩
    have : drainSched (c :: rest) =
        PoolAction.dequeue :: PoolAction.finish 0 :: drainSched rest := by
      simp [drainSched]
    rw [this, step2, hrest]

/-!
Batch writers.  The repository snapshot has two consumers of the result
stream: the runProcess closure (part_000, lines 79-140) appends every
result to the accumulator and flushes whenever the accumulator reaches
batchSize, calling UpdateCircuitBatch unless dry-run is on, then flushes the
final partial batch; the simpler main loop (part_001, lines 39-67) first
skips any result whose Error is non-nil and batches only the rest.  Both are
embedded as recursions over the (already completion-ordered) result list,
returning the list of UpdateCircuitBatch call arguments in call order.
-/

/-- Accumulating loop of the runProcess writer (part_000).  In dry-run mode
the batch is still cleared at the threshold but no store call is made. -/
def writerLoopProcess (dryRun : Bool) (batchSize : Nat)
    (batch : List EnrichedData) : List EnrichedData → List (List EnrichedData)
  | [] =>
    if batch.isEmpty then [] else if dryRun then [] else [batch]
  | r :: rs =>
    if batchSize ≤ (batch ++ [r]).length then
      if dryRun then writerLoopProcess dryRun batchSize [] rs
      else (batch ++ [r]) :: writerLoopProcess dryRun batchSize [] rs
    else writerLoopProcess dryRun batchSize (batch ++ [r]) rs

/-- Store calls made by the runProcess writer over a whole result stream. -/
def runProcessCalls (dryRun : Bool) (batchSize : Nat)
    (results : List EnrichedData) : List (List EnrichedData) :=
  writerLoopProcess dryRun batchSize [] results

/-- Accumulating loop of the part_001 main writer: results with a non-nil
Error are skipped before batching. -/
def writerLoopMain (batchSize : Nat) (batch : List EnrichedData) :
    List EnrichedData → List (List EnrichedData)
  | [] => if batch.isEmpty then [] else [batch]
  | r :: rs =>
    if r.error.isSome then writerLoopMain batchSize batch rs
    else
      if batchSize ≤ (batch ++ [r]).length then
        (batch ++ [r]) :: writerLoopMain batchSize [] rs
      else writerLoopMain batchSize (batch ++ [r]) rs

/-- Store calls made by the part_001 main writer over a whole result
stream. -/
def mainCalls (batchSize : Nat) (results : List EnrichedData) :
    List (List EnrichedData) :=
  writerLoopMain batchSize [] results

theorem writerLoopProcess_flatten (batchSize : Nat) :
    ∀ (l batch : List EnrichedData),
      (writerLoopProcess false batchSize batch l).flatten = batch ++ l := by
  intro l
  induction l with
  | nil =>
    intro batch
    cases batch with
    | nil => simp [writerLoopProcess]
    | cons x xs => simp [writerLoopProcess]
  | cons r rs ih =>
    intro batch
    simp only [writerLoopProcess]
    by_cases hb : batchSize ≤ (batch ++ [r]).length
    · rw [if_pos hb, if_neg (by simp)]
      simp [ih]
    · rw [if_neg hb, ih]
      simp

theorem writerLoopProcess_length (batchSize : Nat) (hb : 1 ≤ batchSize) :
    ∀ (l batch : List EnrichedData), batch.length < batchSize →
      (writerLoopProcess false batchSize batch l).length =
        (batch.length + l.length + (batchSize - 1)) / batchSize := by
  intro l
  induction l with
  | nil =>
    intro batch hlt
    cases batch with
    | nil =>
      have hstep : writerLoopProcess false batchSize [] [] = [] := rfl
      rw [hstep]
      simp only [List.length_nil, Nat.zero_add, Nat.add_zero]
      exact (Nat.div_eq_of_lt (by omega)).symm
    | cons x xs =>
      have hstep : writerLoopProcess false batchSize (x :: xs) [] = [x :: xs] := by
        simp [writerLoopProcess]
      rw [hstep]
      have hk : ((x :: xs).length + ([] : List EnrichedData).length +
          (batchSize - 1)) / batchSize = 1 := by
        apply Nat.div_eq_of_lt_le
        · simp only [Nat.one_mul, List.length_cons, List.length_nil]
          omega
        · simp only [List.length_cons, List.length_nil] at hlt ⊢
          omega
      rw [hk]
      rfl
  | cons r rs ih =>
    intro batch hlt
    simp only [writerLoopProcess]
    by_cases hfull : batchSize ≤ (batch ++ [r]).length
    · have hlen : batch.length + 1 = batchSize := by
        simp only [List.length_append, List.length_cons, List.length_nil] at hfull
        omega
      rw [if_pos hfull, if_neg (by simp), List.length_cons,
        ih [] (by simpa using hb)]
      simp only [List.length_nil, Nat.zero_add, List.length_cons]
      have hnum : batch.length + (rs.length + 1) + (batchSize - 1) =
          rs.length + (batchSize - 1) + batchSize := by omega
      rw [hnum, Nat.add_div_right _ (by omega)]
    · have hlt2 : (batch ++ [r]).length < batchSize := Nat.lt_of_not_le hfull
      rw [if_neg hfull, ih (batch ++ [r]) hlt2]
      congr 1
      simp only [List.length_append, List.length_cons, List.length_nil]
      omega

theorem writerLoopMain_eq_filter (batchSize : Nat) :
    ∀ (l batch : List EnrichedData),
      writerLoopMain batchSize batch l =
        writerLoopProcess false batchSize batch
          (l.filter fun r => r.error.isNone) := by
  intro l
  induction l with
  | nil => intro batch; simp [writerLoopMain, writerLoopProcess]
  | cons r rs ih =>
    intro batch
    cases herr : r.error with
    | some e =>
      have hs : r.error.isSome = true := by simp [herr]
      have hncond : (r.error.isNone : Bool) = false := by simp [herr]
      simp [writerLoopMain, hs, List.filter, hncond, ih]
    | none =>
      have hs : r.error.isSome = false := by simp [herr]
      have hcond : (r.error.isNone : Bool) = true := by simp [herr]
      by_cases hfull : batchSize ≤ (batch ++ [r]).length
      · simp [writerLoopMain, hs, List.filter, hcond, writerLoopProcess, hfull, ih]
      · simp [writerLoopMain, hs, List.filter, hcond, writerLoopProcess, hfull, ih]

/-!
Worker-count configuration (internal/config/config.go, lines 52-57, shared
verbatim by both config variants in the snapshot).  Go reads WORKER_COUNT
with default "5" and runs strconv.Atoi on it; only an Atoi failure falls
back to 5.  strconv.Atoi accepts an optional sign followed by one or more
decimal digits.  The Go for-loop in Run starts no goroutines when
workerCount is zero or negative, so the effective worker count is the
integer clamped below at zero.
-/

/-- Decimal digit accumulation, failing on any non-digit character. -/
def digitsVal : List Char → Nat → Option Nat
  | [], acc => some acc
  | c :: cs, acc =>
    if '0' ≤ c ∧ c ≤ '9' then digitsVal cs (acc * 10 + (c.toNat - 48))
    else none

/-- strconv.Atoi: optional sign, then one or more decimal digits. -/
def parseAtoi (s : String) : Option Int :=
  match s.toList with
  | [] => none
  | c :: rest =>
    if c = '+' then
      if rest.isEmpty then none else (digitsVal rest 0).map Int.ofNat
    else if c = '-' then
      if rest.isEmpty then none else (digitsVal rest 0).map fun v => -(Int.ofNat v)
    else (digitsVal (c :: rest) 0).map Int.ofNat

/-- Worker-count part of config.Load: the WORKER_COUNT variable (none when
unset, defaulting to "5") is parsed with Atoi; parse failure falls back
to 5.  No further validation is performed. -/
def loadWorkerCount (workerCountEnv : Option String) : Int :=
  match parseAtoi (workerCountEnv.getD "5") with
  | some w => w
  | none => 5

/-- Number of goroutines the Run for-loop actually starts for a given
configured workerCount: none when it is zero or negative. -/
def effectiveWorkers (workerCount : Int) : Nat :=
  workerCount.toNat

/-- Zero workers never make progress: every action is disabled, so the pool
state never leaves its initial state. -/
theorem poolRun_zero_workers (cl : Clients) (circuits : List Circuit)
    (sched : List PoolAction) :
    poolRun cl 0 circuits sched = poolInit circuits := by
  suffices h : ∀ (jobs : List Circuit) (em : List EnrichedData),
      sched.foldl (poolStep cl 0) { jobs := jobs, inFlight := [], emitted := em } =
        { jobs := jobs, inFlight := [], emitted := em } by
    exact h circuits []
  induction sched with
  | nil => intro jobs em; rfl
  | cons a rest ih =>
    intro jobs em
    have hstep : poolStep cl 0 { jobs := jobs, inFlight := [], emitted := em } a =
        { jobs := jobs, inFlight := [], emitted := em } := by
      cases a with
      | dequeue => cases jobs <;> simp [poolStep]
      | finish i => simp [poolStep]
    rw [List.foldl_cons, hstep]
    exact ih jobs em

/-!
Transactional batch update (internal/adapters/postgres/repo.go, lines
50-75).  UpdateCircuitBatch opens a transaction, prepares one UPDATE
statement keyed on circuit_code, executes it once per EnrichedData, rolls
the whole transaction back and returns the error as soon as any Exec fails,
and commits otherwise.  The database is embedded as a list of rows; Exec
failure is an oracle on the row data; the pair returned by the embedding
carries the Go error value and the visible database after commit or
rollback.
-/

/-- One row of the circuits table, with the columns touched by the UPDATE. -/
structure DBRow where
  circuitCode : String
  vlan : String := ""
  pppoeUser : String := ""
  pppoePass : String := ""
  gponStatus : String := ""
  rxPower : String := ""
  deriving DecidableEq, Repr

/-- Effect of one Exec of the prepared UPDATE on one table row: rows whose
circuit_code matches the data's CircuitID get all five columns set. -/
def applyUpdate (d : EnrichedData) (row : DBRow) : DBRow :=
  if row.circuitCode = d.circuitID then
    { row with
      vlan := d.vlan,
      pppoeUser := d.pppoeUsername,
      pppoePass := d.pppoePassword,
      gponStatus := d.statusGpon,
      rxPower := d.rxPower }
  else row

/-- The Exec loop inside the transaction: applies each row update to the
transaction-local state, stopping with the error of the first failing
Exec. -/
def execBatch (failsOn : EnrichedData → Bool) (tx : List DBRow) :
    List EnrichedData → Except String (List DBRow)
  | [] => .ok tx
  | d :: rest =>
    if failsOn d then .error ("error actualizando circuito " ++ d.circuitID)
    else execBatch failsOn (tx.map (applyUpdate d)) rest

/-- UpdateCircuitBatch: on any Exec failure the transaction is rolled back
(the visible database is unchanged) and the error is returned; otherwise the
transaction commits and every update becomes visible. -/
def updateCircuitBatch (failsOn : EnrichedData → Bool) (db : List DBRow)
    (data : List EnrichedData) : Except String Unit × List DBRow :=
  match execBatch failsOn db data with
  | .ok tx => (.ok (), tx)
  | .error e => (.error e, db)

theorem execBatch_ok (failsOn : EnrichedData → Bool) :
    ∀ (data : List EnrichedData) (tx : List DBRow),
      (∀ d ∈ data, failsOn d = false) →
      execBatch failsOn tx data =
        .ok (data.foldl (fun acc d => acc.map (applyUpdate d)) tx) := by
  intro data
  induction data with
  | nil => intro tx _; rfl
  | cons d rest ih =>
    intro tx hall
    have hd : failsOn d = false := hall d (by simp)
    have hrest : ∀ x ∈ rest, failsOn x = false := fun x hx => hall x (by simp [hx])
    simp [execBatch, hd, ih _ hrest]

theorem execBatch_fail (failsOn : EnrichedData → Bool) :
    ∀ (data : List EnrichedData) (tx : List DBRow),
      (∃ d ∈ data, failsOn d = true) →
      ∃ e, execBatch failsOn tx data = .error e := by
  intro data
  induction data with
  | nil => intro tx h; simp at h
  | cons d rest ih =>
    intro tx hex
    cases hfd : failsOn d with
    | true =>
      exact ⟨"error actualizando circuito " ++ d.circuitID, by simp [execBatch, hfd]⟩
    | false =>
      obtain ⟨x, hx, hfx⟩ := hex
      rcases List.mem_cons.mp hx with hxd | hxr
      · subst hxd; rw [hfd] at hfx; exact absurd hfx (by simp)
      · obtain ⟨e, he⟩ := ih (tx.map (applyUpdate d)) ⟨x, hxr, hfx⟩
        exact ⟨e, by simp [execBatch, hfd, he]⟩

/-!
Concrete fixtures used by witnesses and counterexamples.
-/

/-- Sample circuit. -/
def cA : Circuit := { cid := "CIR-100" }

/-- Second sample circuit. -/
def cB : Circuit := { cid := "CIR-200" }

/-- Clients where all three lookups succeed. -/
def clAllOk : Clients :=
  { getNetworkInfo := fun _ => .ok ("olt-1", "1/2/3"),
    getServiceDetails := fun _ => .ok ("user1", "pass1"),
    getOpticalInfo := fun _ _ => .ok ("OK", "-21.5 dBm") }

/-- Clients where the Notion network-info lookup fails. -/
def clNotionDown : Clients :=
  { clAllOk with getNetworkInfo := fun _ => .error "down" }

/-- Clients where only the Ubersmith service-detail lookup fails. -/
def clUberDown : Clients :=
  { clAllOk with getServiceDetails := fun _ => .error "boom" }

/-- Clients where both the Ubersmith and the Zabbix lookups fail. -/
def clUberZabDown : Clients :=
  { clAllOk with
    getServiceDetails := fun _ => .error "boom",
    getOpticalInfo := fun _ _ => .error "zfail" }

/-- Sample successful result. -/
def dOk : EnrichedData := { circuitID := "CIR-100", statusGpon := "OK" }

/-- Sample result whose enrichment failed. -/
def dBad : EnrichedData :=
  { circuitID := "CIR-300", error := some "notion error: down" }

/-- Sample database with one row per sample circuit. -/
def dbA : List DBRow := [{ circuitCode := "CIR-100" }, { circuitCode := "CIR-300" }]

/-- Exec-failure oracle that fails exactly on circuit CIR-300. -/
def failsOnBad : EnrichedData → Bool := fun d => d.circuitID == "CIR-300"

/-!
Claims.
-/

/-- C1: for every input list of circuits (worker count at least 1), whenever
the pool's result stream closes it has yielded exactly one EnrichedData per
input circuit — a permutation of the per-circuit enrichment of the whole
input, so exactly K results with no duplicates and no omissions, however
many lookups failed — and the canonical schedule does drive the pool to a
closed stream. -/
theorem c1_pool_yields_one_result_per_circuit
    (cl : Clients) (circuits : List Circuit) (n : Nat) (hn : 1 ≤ n) :
    (∀ sched, poolClosed n (poolRun cl n circuits sched) = true →
      List.Perm (poolRun cl n circuits sched).emitted
        (circuits.map (processCircuit cl)))
    ∧ poolClosed n (poolRun cl n circuits (drainSched circuits)) = true :=
  ⟨fun sched h => pool_emitted_perm cl n circuits sched hn h,
   drainSched_closed cl n circuits hn⟩

/-- C1 witness: two circuits, two workers, one lookup environment with a
failing service-detail step; the drained pool emits exactly the two
per-circuit results. -/
theorem c1_witness :
    poolClosed 2 (poolRun clUberDown 2 [cA, cB] (drainSched [cA, cB])) = true ∧
    List.Perm (poolRun clUberDown 2 [cA, cB] (drainSched [cA, cB])).emitted
      ([cA, cB].map (processCircuit clUberDown)) := by
  have h := c1_pool_yields_one_result_per_circuit clUberDown [cA, cB] 2 (by decide)
  exact ⟨h.2, h.1 _ h.2⟩

/-- C2 counterexample: with the network-info lookup failing on CIR-100, the
worker's call trace is exactly the notion call — the service-detail lookup
is never attempted, contradicting the claim that it still is. -/
theorem c2_counterexample :
    clNotionDown.getNetworkInfo cA.cid = .error "down" ∧
    (processCircuitTrace clNotionDown cA).2 = ["notion"] ∧
    "ubersmith" ∉ (processCircuitTrace clNotionDown cA).2 := by
  decide

/-- C2 amended: when the network-info (Notion) lookup fails, the worker
skips BOTH the service-detail (Ubersmith) and the optical-info (Zabbix)
lookups and immediately emits a result carrying only the tagged notion
error. -/
theorem c2_amended_notion_failure_short_circuits
    (cl : Clients) (c : Circuit) (e : String)
    (h : cl.getNetworkInfo c.cid = .error e) :
    processCircuitTrace cl c =
      ({ circuitID := c.cid, error := some ("notion error: " ++ e) },
       ["notion"]) := by
  unfold processCircuitTrace
  rw [h]

/-- C2 amended witness at the concrete failing environment. -/
theorem c2_amended_witness :
    processCircuitTrace clNotionDown cA =
      ({ circuitID := cA.cid, error := some ("notion error: " ++ "down") },
       ["notion"]) :=
  c2_amended_notion_failure_short_circuits clNotionDown cA "down" rfl

/-- C3 counterexample: the service-detail lookup fails on CIR-100 yet the
produced EnrichedData has a nil error field — the failure is not recorded,
contradicting the claim. -/
theorem c3_counterexample :
    clUberDown.getServiceDetails cA.cid = .error "boom" ∧
    (processCircuit clUberDown cA).error = none := by
  decide

/-- C3 amended: when the service-detail (Ubersmith) lookup fails, the worker
only logs it — the failure is NOT written to the error field — and the
workflow still proceeds to the optical-info step, whose outcome alone
determines the result's error field. -/
theorem c3_amended_ubersmith_failure_logged_only
    (cl : Clients) (c : Circuit) (olt ont ue : String)
    (hn : cl.getNetworkInfo c.cid = .ok (olt, ont))
    (hu : cl.getServiceDetails c.cid = .error ue) :
    "zabbix" ∈ (processCircuitTrace cl c).2 ∧
    processCircuit cl c =
      (match cl.getOpticalInfo olt ont with
       | .ok (status, rx) =>
         { circuitID := c.cid, statusGpon := status, rxPower := rx }
       | .error ze =>
         { circuitID := c.cid, error := some ("zabbix error: " ++ ze) }) := by
  constructor
  · unfold processCircuitTrace
    rw [hn, hu]
    cases hz : cl.getOpticalInfo olt ont with
    | ok p => cases p; simp [hz]
    | error ze => simp [hz]
  · unfold processCircuit
    rw [hn, hu]
    cases hz : cl.getOpticalInfo olt ont with
    | ok p => cases p; simp [hz]
    | error ze => simp [hz]

/-- C3 amended witness at the concrete environment where only the
service-detail lookup fails. -/
theorem c3_amended_witness :
    "zabbix" ∈ (processCircuitTrace clUberDown cA).2 ∧
    processCircuit clUberDown cA =
      (match clUberDown.getOpticalInfo "olt-1" "1/2/3" with
       | .ok (status, rx) =>
         { circuitID := cA.cid, statusGpon := status, rxPower := rx }
       | .error ze =>
         { circuitID := cA.cid, error := some ("zabbix error: " ++ ze) }) :=
  c3_amended_ubersmith_failure_logged_only clUberDown cA "olt-1" "1/2/3" "boom"
    rfl rfl

/-- C4 counterexample: both the service-detail and the optical-info lookups
fail on CIR-100, yet the error field holds only the zabbix cause — the
ubersmith cause is dropped, contradicting the claim that every failed
step's cause is retained. -/
theorem c4_counterexample :
    clUberZabDown.getServiceDetails cA.cid = .error "boom" ∧
    clUberZabDown.getOpticalInfo "olt-1" "1/2/3" = .error "zfail" ∧
    (processCircuit clUberZabDown cA).error = some "zabbix error: zfail" := by
  decide

/-- C4 amended: when both the service-detail and the optical-info lookups
fail for a circuit, only the optical-info (zabbix) cause is recorded in the
error field; the service-detail cause is dropped, since an ubersmith
failure is never written to the error field and the composite branch of the
worker is therefore unreachable. -/
theorem c4_amended_only_zabbix_cause_recorded
    (cl : Clients) (c : Circuit) (olt ont ue ze : String)
    (hn : cl.getNetworkInfo c.cid = .ok (olt, ont))
    (hu : cl.getServiceDetails c.cid = .error ue)
    (hz : cl.getOpticalInfo olt ont = .error ze) :
    (processCircuit cl c).error = some ("zabbix error: " ++ ze) := by
  unfold processCircuit
  rw [hn, hu]
  simp [hz]

/-- C4 amended witness at the concrete double-failure environment. -/
theorem c4_amended_witness :
    (processCircuit clUberZabDown cA).error = some ("zabbix error: " ++ "zfail") :=
  c4_amended_only_zabbix_cause_recorded clUberZabDown cA "olt-1" "1/2/3"
    "boom" "zfail" rfl rfl rfl

/-- C5: with at least one worker, whenever the result stream closes, the
number of emitted results equals the number of input circuits (nothing is
lost to an early close), and conversely the stream can never be closed
while any worker still holds an in-flight circuit. -/
theorem c5_close_only_after_all_workers_done
    (cl : Clients) (circuits : List Circuit) (n : Nat)
    (sched : List PoolAction) (hn : 1 ≤ n) :
    (poolClosed n (poolRun cl n circuits sched) = true →
      (poolRun cl n circuits sched).emitted.length = circuits.length)
    ∧ (∀ s : PoolState, s.inFlight ≠ [] → poolClosed n s = false) := by
  constructor
  · intro h
    have hp := pool_emitted_perm cl n circuits sched hn h
    simpa using hp.length_eq
  · intro s hs
    cases hfl : s.inFlight with
    | nil => exact absurd hfl hs
    | cons x xs => simp [poolClosed, hfl]

/-- C5 witness: a drained two-circuit run emits both results, and a state
with a worker mid-flight on its last item after the queue emptied is not
closed. -/
theorem c5_witness :
    (poolRun clAllOk 1 [cA, cB] (drainSched [cA, cB])).emitted.length = 2 ∧
    poolClosed 1 { jobs := [], inFlight := [cB], emitted := [] } = false := by
  have h := c5_close_only_after_all_workers_done clAllOk [cA, cB] 1
    (drainSched [cA, cB]) (by decide)
  exact ⟨h.1 (by decide), h.2 _ (by decide)⟩

/-- C6: for a circuit where the network-info lookup succeeds, the
service-detail lookup fails, and the optical-info lookup succeeds, the
result still carries exactly the status and receive power returned by the
optical lookup (partial enrichment is not discarded), so they are non-empty
whenever the lookup's values are. -/
theorem c6_partial_success_keeps_optical_fields
    (cl : Clients) (c : Circuit) (olt ont ue status rx : String)
    (hn : cl.getNetworkInfo c.cid = .ok (olt, ont))
    (hu : cl.getServiceDetails c.cid = .error ue)
    (hz : cl.getOpticalInfo olt ont = .ok (status, rx)) :
    (processCircuit cl c).statusGpon = status ∧
    (processCircuit cl c).rxPower = rx ∧
    (status ≠ "" → (processCircuit cl c).statusGpon ≠ "") ∧
    (rx ≠ "" → (processCircuit cl c).rxPower ≠ "") := by
  have hres : processCircuit cl c =
      { circuitID := c.cid, statusGpon := status, rxPower := rx } := by
    unfold processCircuit
    rw [hn, hu]
    simp [hz]
  rw [hres]
  exact ⟨rfl, rfl, fun h => h, fun h => h⟩

/-- C6 witness at the concrete environment where only the service-detail
lookup fails. -/
theorem c6_witness :
    (processCircuit clUberDown cA).statusGpon = "OK" ∧
    (processCircuit clUberDown cA).rxPower = "-21.5 dBm" := by
  have h := c6_partial_success_keeps_optical_fields clUberDown cA
    "olt-1" "1/2/3" "boom" "OK" "-21.5 dBm" rfl rfl rfl
  exact ⟨h.1, h.2.1⟩

/-- C7 counterexample: a stream of one errored result with batch size 100
drives the part_001 main writer to zero store calls, not the ceil(1/100)=1
calls the claim requires, and that result appears in no call. -/
theorem c7_counterexample :
    (mainCalls 100 [dBad]).length = 0 ∧
    ([dBad].length + (100 - 1)) / 100 = 1 ∧
    dBad ∉ (mainCalls 100 [dBad]).flatten := by
  decide

/-- C7 amended: the runProcess writer (dry-run off) satisfies the claim —
for N results and batch size B it makes exactly ceil(N/B) store calls whose
concatenation is exactly the result stream, final partial batch included —
but the part_001 main writer first discards every result with a non-nil
error, so only the M successful results are batched, in ceil(M/B) calls. -/
theorem c7_amended_batching
    (batchSize : Nat) (results : List EnrichedData) (hb : 1 ≤ batchSize) :
    ((runProcessCalls false batchSize results).flatten = results ∧
     (runProcessCalls false batchSize results).length =
       (results.length + (batchSize - 1)) / batchSize)
    ∧ ((mainCalls batchSize results).flatten =
         results.filter (fun r => r.error.isNone) ∧
       (mainCalls batchSize results).length =
         ((results.filter (fun r => r.error.isNone)).length +
           (batchSize - 1)) / batchSize) := by
  refine ⟨⟨?_, ?_⟩, ?_, ?_⟩
  · simpa using writerLoopProcess_flatten batchSize results []
  · simpa using writerLoopProcess_length batchSize hb results []
      (by simpa using hb)
  · rw [mainCalls, writerLoopMain_eq_filter]
    simpa using writerLoopProcess_flatten batchSize
      (results.filter fun r => r.error.isNone) []
  · rw [mainCalls, writerLoopMain_eq_filter]
    simpa using writerLoopProcess_length batchSize hb
      (results.filter fun r => r.error.isNone) [] (by simpa using hb)

/-- C7 amended witness: five results, one errored, batch size 2: runProcess
makes three calls covering all five results; main makes two calls covering
only the four successful ones. -/
theorem c7_amended_witness :
    (runProcessCalls false 2 [dOk, dOk, dBad, dOk, dOk]).flatten =
      [dOk, dOk, dBad, dOk, dOk] ∧
    (runProcessCalls false 2 [dOk, dOk, dBad, dOk, dOk]).length = 3 ∧
    (mainCalls 2 [dOk, dOk, dBad, dOk, dOk]).flatten = [dOk, dOk, dOk, dOk] ∧
    (mainCalls 2 [dOk, dOk, dBad, dOk, dOk]).length = 2 := by
  have h := c7_amended_batching 2 [dOk, dOk, dBad, dOk, dOk] (by decide)
  refine ⟨h.1.1, ?_, ?_, ?_⟩
  · rw [h.1.2]; decide
  · rw [h.2.1]; decide
  · rw [h.2.2]; decide

/-- C8: for a fixed input and lookup environment, any two closed runs of
the pool — with any worker counts at least 1 and any schedules — emit the
same multiset of EnrichedData results. -/
theorem c8_worker_count_does_not_change_results
    (cl : Clients) (circuits : List Circuit) (n1 n2 : Nat)
    (s1 s2 : List PoolAction) (h1 : 1 ≤ n1) (h2 : 1 ≤ n2)
    (hc1 : poolClosed n1 (poolRun cl n1 circuits s1) = true)
    (hc2 : poolClosed n2 (poolRun cl n2 circuits s2) = true) :
    List.Perm (poolRun cl n1 circuits s1).emitted
      (poolRun cl n2 circuits s2).emitted :=
  (pool_emitted_perm cl n1 circuits s1 h1 hc1).trans
    (pool_emitted_perm cl n2 circuits s2 h2 hc2).symm

/-- C8 witness: the same two circuits run with one worker sequentially and
with two workers under an out-of-order schedule; the emitted results are a
permutation of each other. -/
theorem c8_witness :
    List.Perm (poolRun clAllOk 1 [cA, cB] (drainSched [cA, cB])).emitted
      (poolRun clAllOk 2 [cA, cB]
        [PoolAction.dequeue, PoolAction.dequeue,
         PoolAction.finish 1, PoolAction.finish 0]).emitted :=
  c8_worker_count_does_not_change_results clAllOk [cA, cB] 1 2
    (drainSched [cA, cB])
    [PoolAction.dequeue, PoolAction.dequeue,
     PoolAction.finish 1, PoolAction.finish 0]
    (by decide) (by decide) (by decide) (by decide)

/-- C9 counterexample: WORKER_COUNT set to the parseable string "0" loads
as worker count 0 — neither defaulted nor rejected — and the pool run with
zero effective workers is immediately closed having emitted nothing for a
one-circuit input: the pool does execute with N < 1 and silently drops the
circuit. -/
theorem c9_counterexample :
    loadWorkerCount (some "0") = 0 ∧
    effectiveWorkers (loadWorkerCount (some "0")) = 0 ∧
    poolClosed 0 (poolRun clAllOk 0 [cA] []) = true ∧
    (poolRun clAllOk 0 [cA] []).emitted = [] := by
  decide

/-- C9 amended: config.Load falls back to the default 5 only when
WORKER_COUNT fails integer parsing; any parseable value — including zero
and negatives — is passed through with no validation, the Run for-loop then
starts zero workers, and every schedule leaves the pool in its initial
state: the stream closes with no results and all circuits are dropped. -/
theorem c9_amended_no_validation_of_worker_count :
    (∀ (s : String) (k : Int), parseAtoi s = some k →
      loadWorkerCount (some s) = k)
    ∧ (∀ (w : Int), w ≤ 0 → effectiveWorkers w = 0)
    ∧ (∀ (cl : Clients) (circuits : List Circuit) (sched : List PoolAction),
        poolClosed 0 (poolRun cl 0 circuits sched) = true ∧
        (poolRun cl 0 circuits sched).emitted = []) := by
  refine ⟨?_, ?_, ?_⟩
  · intro s k hk
    unfold loadWorkerCount
    simp [Option.getD, hk]
  · intro w hw
    unfold effectiveWorkers
    omega
  · intro cl circuits sched
    rw [poolRun_zero_workers]
    exact ⟨by simp [poolClosed, poolInit], rfl⟩

/-- C9 amended witness: the parseable negative string "-3" loads verbatim,
yields zero effective workers, and a zero-worker run on one circuit closes
with nothing emitted. -/
theorem c9_amended_witness :
    loadWorkerCount (some "-3") = -3 ∧
    effectiveWorkers (-3) = 0 ∧
    poolClosed 0 (poolRun clAllOk 0 [cA] [PoolAction.dequeue]) = true ∧
    (poolRun clAllOk 0 [cA] [PoolAction.dequeue]).emitted = [] := by
  have h := c9_amended_no_validation_of_worker_count
  exact ⟨h.1 "-3" (-3) (by decide), h.2.1 (-3) (by decide),
    (h.2.2 clAllOk [cA] [PoolAction.dequeue]).1,
    (h.2.2 clAllOk [cA] [PoolAction.dequeue]).2⟩

/-- C10: UpdateCircuitBatch is atomic per batch — if every row Exec
succeeds the transaction commits with every update applied in order, and if
any row Exec fails an error is returned and the visible database is exactly
the one before the call (full rollback, no row applied). -/
theorem c10_updateCircuitBatch_atomic
    (failsOn : EnrichedData → Bool) (db : List DBRow)
    (data : List EnrichedData) :
    ((∀ d ∈ data, failsOn d = false) →
      updateCircuitBatch failsOn db data =
        (.ok (), data.foldl (fun acc d => acc.map (applyUpdate d)) db))
    ∧ ((∃ d ∈ data, failsOn d = true) →
      (∃ e, (updateCircuitBatch failsOn db data).1 = .error e) ∧
      (updateCircuitBatch failsOn db data).2 = db) := by
  constructor
  · intro hall
    rw [updateCircuitBatch, execBatch_ok failsOn data db hall]
  · intro hex
    obtain ⟨e, he⟩ := execBatch_fail failsOn data db hex
    rw [updateCircuitBatch, he]
    exact ⟨⟨e, rfl⟩, rfl⟩

/-- C10 witness: a batch of two good rows commits with both updates
applied; a batch whose second row's Exec fails returns an error and leaves
the database untouched. -/
theorem c10_witness :
    updateCircuitBatch failsOnBad dbA [dOk, dOk] =
      (.ok (), [dOk, dOk].foldl (fun acc d => acc.map (applyUpdate d)) dbA) ∧
    (∃ e, (updateCircuitBatch failsOnBad dbA [dOk, dBad]).1 = .error e) ∧
    (updateCircuitBatch failsOnBad dbA [dOk, dBad]).2 = dbA := by
  have hgood := c10_updateCircuitBatch_atomic failsOnBad dbA [dOk, dOk]
  have hfail := c10_updateCircuitBatch_atomic failsOnBad dbA [dOk, dBad]
  exact ⟨hgood.1 (by decide), (hfail.2 (by decide)).1, (hfail.2 (by decide)).2⟩

end GponSync
